import Mathlib

/-!
Shallow embedding of the Subly connection-graph application (TypeScript)
into Lean 4, for checking the natural-language specification against the
code.  The definitions below are direct translations of the functions in
`src/connection-graph/src/utils/heatMap.ts`,
`src/connection-graph/src/context/ConnectionsContext.tsx`,
`src/connection-graph/src/lib/gemini/service.ts` and
`src/connection-graph/src/components/LinkedInImport/LinkedInImport.tsx`.
Dates and timestamps are modelled as integer epoch milliseconds;
JavaScript floating-point day arithmetic is replaced by exact integer
arithmetic on milliseconds (the comparisons the code performs are
equivalent under this translation, since the divisors are positive).
External effects (the Gemini API call, JSON parsing, localStorage, the
Date parser) are passed in as explicit parameters, so every function is a
pure, total function of its inputs.
-/

namespace Subly

/-- Whether `pat` is an initial segment of `cs` (character lists). -/
def leadMatch : List Char → List Char → Bool
  | [], _ => true
  | _ :: _, [] => false
  | p :: ps, c :: cs => p == c && leadMatch ps cs

/-- Whether `pat` occurs as a contiguous segment of `cs`. -/
def occursInChars (pat : List Char) : List Char → Bool
  | [] => leadMatch pat []
  | c :: cs => leadMatch pat (c :: cs) || occursInChars pat cs

/-- Models JavaScript `String.prototype.includes`: substring
occurrence, decided over the character lists of the two strings. -/
def jsIncludes (s pat : String) : Bool :=
  occursInChars pat.data s.data

/-- Models JavaScript `String.prototype.toLowerCase` over the character
list of the string (ASCII-faithful, as are all keywords the code
lowercases against). -/
def jsToLower (s : String) : String :=
  String.mk (s.data.map Char.toLower)

/-- Models JavaScript `String.prototype.trim`: strip leading and
trailing whitespace, over the character list of the string. -/
def jsTrim (s : String) : String :=
  String.mk (((s.data.dropWhile Char.isWhitespace).reverse.dropWhile
    Char.isWhitespace).reverse)

/-- Milliseconds in one day, the `1000 * 60 * 60 * 24` of the source. -/
def msPerDay : Int := 1000 * 60 * 60 * 24

/-- HeatStatus from `src/types`: a three-valued recency classification. -/
inductive HeatStatus where
  | hot
  | warm
  | cold
deriving DecidableEq, Repr

/-- Embedding of `getHeatStatus` (`src/utils/heatMap.ts`), with the
current time `now` taken as an explicit parameter instead of
`new Date()`.  The source computes `diffDays = diffTime / 86400000` as a
float and compares `diffDays <= 14` and `diffDays <= 90`; over exact
arithmetic these comparisons are `diffTime <= 14 * 86400000` and
`diffTime <= 90 * 86400000`, which is what is written here. -/
def getHeatStatus (lastContactDate now : Int) : HeatStatus :=
  let diffTime := now - lastContactDate
  if diffTime ≤ 14 * msPerDay then .hot
  else if diffTime ≤ 90 * msPerDay then .warm
  else .cold

/-- ConnectionNode from `src/types`: a Connection together with its
computed `heatStatus`.  The D3 position fields (x, y, vx, vy, fx, fy) play
no role in any logic and are omitted; optional contact fields are kept. -/
structure ConnectionNode where
  id : String
  name : String
  title : String
  company : String
  industry : String
  email : Option String := none
  phone : Option String := none
  linkedIn : Option String := none
  lastContactDate : Int := 0
  notes : Option String := none
  avatar : Option String := none
  degree : Nat
  connectedThrough : Option String := none
  heatStatus : HeatStatus
deriving DecidableEq, Repr

/-- FilterState from `src/types`.  `maxDegree : 1 | 2 | 3 | null` is
modelled as `Option Nat`. -/
structure FilterState where
  industries : List String
  heatStatuses : List HeatStatus
  searchQuery : String
  maxDegree : Option Nat
deriving DecidableEq, Repr

/-- Embedding of the `matchesBasicFilters` callback of
`ConnectionsContext.tsx`: the early-return guard style of the source is
translated to the equivalent conjunction of the pass conditions
(industries empty or containing the industry; search query empty or
occurring in one of the lowercased name/title/company/industry fields). -/
def matchesBasicFilters (filters : FilterState) (conn : ConnectionNode) : Bool :=
  (filters.industries.isEmpty || filters.industries.contains conn.industry) &&
  (filters.searchQuery == "" ||
    (([conn.name, conn.title, conn.company, conn.industry].map jsToLower).any
      (fun field => jsIncludes field (jsToLower filters.searchQuery))))

/-- Models the survival test
`!(!conn.connectedThrough || !visibleIds.has(conn.connectedThrough))` of
the 2nd and 3rd degree passes: in JavaScript an absent or empty-string
`connectedThrough` is falsy and fails the test. -/
def survivesParent (visibleIds : List String) (connectedThrough : Option String) : Bool :=
  match connectedThrough with
  | none => false
  | some p => if p == "" then false else visibleIds.contains p

/-- Pass condition of the first pass of the cascading filter of
`ConnectionsContext.tsx`: a 1st-degree connection matching the basic
filters and, when the heat filter is non-empty, carrying one of the
selected heat statuses. -/
def firstPassPred (filters : FilterState) (conn : ConnectionNode) : Bool :=
  conn.degree == 1 &&
  matchesBasicFilters filters conn &&
  (filters.heatStatuses.isEmpty || filters.heatStatuses.contains conn.heatStatus)

/-- First pass of the cascading filter. -/
def firstDegreeFiltered (connections : List ConnectionNode) (filters : FilterState) : List ConnectionNode :=
  connections.filter (firstPassPred filters)

/-- Pass condition of the second pass: a 2nd-degree connection whose
`connectedThrough` is the id of a visible 1st-degree connection and
which matches the basic filters.  The heat filter is not consulted. -/
def secondPassPred (filters : FilterState) (visibleIds : List String) (conn : ConnectionNode) : Bool :=
  conn.degree == 2 &&
  survivesParent visibleIds conn.connectedThrough &&
  matchesBasicFilters filters conn

/-- Second pass of the cascading filter. -/
def secondDegreeFiltered (connections : List ConnectionNode) (filters : FilterState) (visible1stIds : List String) : List ConnectionNode :=
  connections.filter (secondPassPred filters visible1stIds)

/-- Pass condition of the third pass: as the second, but for 3rd-degree
connections against the visible 2nd-degree ids. -/
def thirdPassPred (filters : FilterState) (visibleIds : List String) (conn : ConnectionNode) : Bool :=
  conn.degree == 3 &&
  survivesParent visibleIds conn.connectedThrough &&
  matchesBasicFilters filters conn

/-- Third pass of the cascading filter. -/
def thirdDegreeFiltered (connections : List ConnectionNode) (filters : FilterState) (visible2ndIds : List String) : List ConnectionNode :=
  connections.filter (thirdPassPred filters visible2ndIds)

/-- Ids of the surviving 1st-degree connections, the
`visible1stIds = new Set(firstDegreeFiltered.map(c => c.id))` of the
source; the `Set` is modelled as the list of ids (only membership is
consulted). -/
def visible1stIds (connections : List ConnectionNode) (filters : FilterState) : List String :=
  (firstDegreeFiltered connections filters).map (fun c => c.id)

/-- Ids of the surviving 2nd-degree connections, the `visible2ndIds` set
of the source. -/
def visible2ndIds (connections : List ConnectionNode) (filters : FilterState) : List String :=
  (secondDegreeFiltered connections filters (visible1stIds connections filters)).map (fun c => c.id)

/-- Embedding of the `filteredConnections` memo of
`ConnectionsContext.tsx`: the cascading three-pass degree filter, with
the local `let` bindings of the source inlined through `visible1stIds`
and `visible2ndIds`. -/
def filteredConnections (connections : List ConnectionNode) (filters : FilterState) : List ConnectionNode :=
  if filters.maxDegree == some 1 then
    firstDegreeFiltered connections filters
  else if filters.maxDegree == some 2 then
    firstDegreeFiltered connections filters ++
    secondDegreeFiltered connections filters (visible1stIds connections filters)
  else
    firstDegreeFiltered connections filters ++
    secondDegreeFiltered connections filters (visible1stIds connections filters) ++
    thirdDegreeFiltered connections filters (visible2ndIds connections filters)

/-- Priority from `src/lib/gemini/service.ts`. -/
inductive Priority where
  | HIGH
  | MEDIUM
  | LOW
deriving DecidableEq, Repr

/-- ActionType from `src/lib/gemini/service.ts`. -/
inductive ActionType where
  | RESPONSE_NEEDED
  | FOLLOW_UP
  | WAITING
  | FYI
  | DEADLINE
deriving DecidableEq, Repr

/-- ResponseTime from `src/lib/gemini/service.ts`: the string union
`ASAP | This week | When convenient | No response needed`. -/
inductive ResponseTime where
  | ASAP
  | ThisWeek
  | WhenConvenient
  | NoResponseNeeded
deriving DecidableEq, Repr

/-- ParsedEmail from `src/lib/gmail/service.ts`.  The `from` and `to`
fields are Lean keywords and are rendered `sender` and `recipient`;
`date` is epoch milliseconds. -/
structure ParsedEmail where
  id : String
  threadId : String := ""
  subject : String
  sender : String
  fromEmail : String := ""
  recipient : String := ""
  date : Int
  snippet : String
  body : String := ""
  isStarred : Bool
  isUnread : Bool := false
  labels : List String := []
deriving DecidableEq, Repr

/-- EmailAnalysis from `src/lib/gemini/service.ts`. -/
structure EmailAnalysis where
  id : String
  priority : Priority
  action : ActionType
  summary : String
  suggestedResponseTime : ResponseTime
  keyPoints : Option (List String) := none
  deadline : Option String := none
  reasoning : Option String := none
deriving DecidableEq, Repr

/-- AnalyzedEmail from `src/lib/gemini/service.ts`: a ParsedEmail with
its attached analysis. -/
structure AnalyzedEmail extends ParsedEmail where
  analysis : EmailAnalysis
deriving DecidableEq, Repr

/-- Number of whole days between `date` and `now`, the
`Math.floor((Date.now() - email.date.getTime()) / (1000*60*60*24))` of
the source; `Int.fdiv` is floor division. -/
def daysOld (date now : Int) : Int :=
  Int.fdiv (now - date) msPerDay

/-- Embedding of `GeminiService.generateSmartMockAnalysis`: the
keyword-based fallback analysis (current time passed explicitly). -/
def generateSmartMockAnalysis (email : ParsedEmail) (now : Int) : EmailAnalysis :=
  let subject := jsToLower email.subject
  let snippet := jsToLower email.snippet
  let d := daysOld email.date now
  let par :=
    if jsIncludes subject "urgent" || jsIncludes subject "asap" ||
       jsIncludes subject "important" || jsIncludes subject "deadline" ||
       jsIncludes subject "action required" || email.isStarred then
      (Priority.HIGH, ActionType.RESPONSE_NEEDED, ResponseTime.ASAP)
    else if jsIncludes subject "meeting" || jsIncludes subject "invite" ||
            jsIncludes subject "calendar" then
      (Priority.MEDIUM, ActionType.DEADLINE, ResponseTime.ThisWeek)
    else if jsIncludes subject "question" || jsIncludes subject "help" ||
            jsIncludes snippet "?" then
      (Priority.MEDIUM, ActionType.RESPONSE_NEEDED, ResponseTime.ThisWeek)
    else if jsIncludes subject "newsletter" || jsIncludes subject "update" ||
            jsIncludes subject "digest" then
      (Priority.LOW, ActionType.FYI, ResponseTime.NoResponseNeeded)
    else
      (Priority.MEDIUM, ActionType.FYI, ResponseTime.WhenConvenient)
  let action := par.2.1
  let responseTime := par.2.2
  let priority := if d > 7 && !(par.1 == Priority.HIGH) then Priority.LOW else par.1
  { id := email.id,
    priority := priority,
    action := action,
    summary := if email.snippet == "" then "Email from " ++ email.sender
               else email.snippet.take 100,
    suggestedResponseTime := responseTime,
    keyPoints := some ["From: " ++ email.sender, "Subject: " ++ email.subject.take 50],
    reasoning := some "Smart analysis based on email metadata (demo mode)" }

/-- Outcome of the Gemini API call together with the JSON extraction and
parse of its free-text response, passed to `analyzeEmail` as an explicit
parameter: `Except.error` is a thrown/rejected call (including HTTP 429
rate limiting); `Except.ok none` is a response from which no JSON
payload could be regex-extracted or parsed; `Except.ok (some a)` is a
successfully parsed analysis. -/
abbrev ApiOutcome := Except Unit (Option EmailAnalysis)

/-- Embedding of `GeminiService.analyzeEmail`: on any API error or
unparseable response the catch block returns the smart mock analysis;
on success the parsed analysis is returned with its `id` overwritten by
the input email's id. -/
def analyzeEmail (email : ParsedEmail) (now : Int) (apiResult : ApiOutcome) : EmailAnalysis :=
  match apiResult with
  | .error _ => generateSmartMockAnalysis email now
  | .ok none => generateSmartMockAnalysis email now
  | .ok (some analysis) => { analysis with id := email.id }

/-- Embedding of `GeminiService.batchAnalyze`: a sequential loop calling
`analyzeEmail` per email (the 1-second sleep has no effect on the
result), with a per-item catch producing the default MEDIUM/FYI
analysis.  The API outcome for each email is supplied by the `oracle`
parameter; `oracle` returning `Except.error` models `analyzeEmail`
itself rejecting (which its own catch prevents, but the loop guards
against anyway). -/
def batchAnalyze (emails : List ParsedEmail) (now : Int)
    (oracle : ParsedEmail → Except Unit ApiOutcome) : List EmailAnalysis :=
  emails.map (fun email =>
    match oracle email with
    | .ok apiResult => analyzeEmail email now apiResult
    | .error _ =>
      { id := email.id,
        priority := Priority.MEDIUM,
        action := ActionType.FYI,
        summary := if email.snippet == "" then "Failed to analyze" else email.snippet,
        suggestedResponseTime := ResponseTime.WhenConvenient })

/-- Lookup in the `new Map(analyses.map(a => [a.id, a]))` of
`analyzeAndEnrich`: for duplicate ids the later entry wins, which is the
last matching element of the list. -/
def analysisMapGet (analyses : List EmailAnalysis) (id : String) : Option EmailAnalysis :=
  analyses.reverse.find? (fun a => a.id == id)

/-- Default analysis attached by `analyzeAndEnrich` when the map holds
no analysis for the email's id. -/
def defaultAnalysis (email : ParsedEmail) : EmailAnalysis :=
  { id := email.id,
    priority := Priority.MEDIUM,
    action := ActionType.FYI,
    summary := email.snippet,
    suggestedResponseTime := ResponseTime.WhenConvenient }

/-- Embedding of `GeminiService.analyzeAndEnrich`, split at the
`batchAnalyze` boundary: given the produced analyses, each email is
returned unchanged with its analysis (or the default) attached. -/
def enrichWith (emails : List ParsedEmail) (analyses : List EmailAnalysis) : List AnalyzedEmail :=
  emails.map (fun email =>
    { toParsedEmail := email,
      analysis := (analysisMapGet analyses email.id).getD (defaultAnalysis email) })

/-- Embedding of `GeminiService.analyzeAndEnrich` itself. -/
def analyzeAndEnrich (emails : List ParsedEmail) (now : Int)
    (oracle : ParsedEmail → Except Unit ApiOutcome) : List AnalyzedEmail :=
  enrichWith emails (batchAnalyze emails now oracle)

/-- Numeric priority rank, the `priorityOrder` record of
`GeminiService.sortByPriority`. -/
def priorityOrder : Priority → Nat
  | .HIGH => 0
  | .MEDIUM => 1
  | .LOW => 2

/-- Comparator of `GeminiService.sortByPriority` as a boolean
less-or-equal: priority rank first, then date ascending (older first)
for equal priority.  A JavaScript engine sorting a copy of the array
with the source's three-way comparator returns exactly a permutation of
the input that is sorted (and stable) for this relation; `mergeSort` is
such a sort. -/
def sortLE (a b : AnalyzedEmail) : Bool :=
  priorityOrder a.analysis.priority < priorityOrder b.analysis.priority ||
  (priorityOrder a.analysis.priority == priorityOrder b.analysis.priority && a.date ≤ b.date)

/-- Embedding of `GeminiService.sortByPriority`: returns a new sorted
list, leaving the input untouched (`[...emails].sort(...)`). -/
def sortByPriority (emails : List AnalyzedEmail) : List AnalyzedEmail :=
  emails.mergeSort sortLE

/-- Connection from `src/types` (the raw record, before heat status is
computed). -/
structure Connection where
  id : String
  name : String
  title : String
  company : String
  industry : String
  email : Option String := none
  phone : Option String := none
  linkedIn : Option String := none
  lastContactDate : Int := 0
  notes : Option String := none
  avatar : Option String := none
  degree : Nat
  connectedThrough : Option String := none
deriving DecidableEq, Repr

/-- LinkedInRow from `LinkedInImport.tsx`: one parsed CSV row.  Fields
the CSV row lacks are the empty string (which is falsy in the source's
`row[...] || default` tests). -/
structure LinkedInRow where
  firstName : String
  lastName : String
  url : String := ""
  emailAddress : String := ""
  company : String
  position : String
  connectedOn : String := ""
deriving DecidableEq, Repr

/-- Embedding of `guessIndustry` (`LinkedInImport.tsx`): the keyword
heuristic over the lowercased company and position. -/
def guessIndustry (company position : String) : String :=
  let text := jsToLower (company ++ " " ++ position)
  if jsIncludes text "software" || jsIncludes text "tech" ||
     jsIncludes text "developer" || jsIncludes text "engineer" then "Technology"
  else if jsIncludes text "bank" || jsIncludes text "finance" ||
          jsIncludes text "investment" || jsIncludes text "capital" then "Finance"
  else if jsIncludes text "marketing" || jsIncludes text "brand" ||
          jsIncludes text "advertising" then "Marketing"
  else if jsIncludes text "sales" || jsIncludes text "business development" then "Sales"
  else if jsIncludes text "design" || jsIncludes text "creative" ||
          jsIncludes text "ux" || jsIncludes text "ui" then "Design"
  else if jsIncludes text "health" || jsIncludes text "medical" ||
          jsIncludes text "hospital" || jsIncludes text "pharma" then "Healthcare"
  else if jsIncludes text "consult" then "Consulting"
  else if jsIncludes text "legal" || jsIncludes text "law" ||
          jsIncludes text "attorney" then "Legal"
  else if jsIncludes text "real estate" || jsIncludes text "property" then "Real Estate"
  else if jsIncludes text "university" || jsIncludes text "school" ||
          jsIncludes text "education" || jsIncludes text "professor" then "Education"
  else "Other"

/-- List of all keywords `guessIndustry` tests, for stating the
no-keyword-matches fallback. -/
def industryKeywords : List String :=
  ["software", "tech", "developer", "engineer",
   "bank", "finance", "investment", "capital",
   "marketing", "brand", "advertising",
   "sales", "business development",
   "design", "creative", "ux", "ui",
   "health", "medical", "hospital", "pharma",
   "consult",
   "legal", "law", "attorney",
   "real estate", "property",
   "university", "school", "education", "professor"]

/-- Embedding of `linkedInRowToConnection` (`LinkedInImport.tsx`).  The
current time `now` replaces `new Date()` / `Date.now()`, and the
JavaScript `new Date(string)` parser is the explicit `parseDate`
parameter (`none` models an unparseable date, the `isNaN` branch). -/
def linkedInRowToConnection (row : LinkedInRow) (index : Nat) (now : Int)
    (parseDate : String → Option Int) : Connection :=
  let lastContactDate :=
    if row.connectedOn == "" then now
    else match parseDate row.connectedOn with
      | some t => t
      | none => now
  { id := "linkedin-" ++ toString index ++ "-" ++ toString now,
    name := let n := jsTrim (row.firstName ++ " " ++ row.lastName)
            if n == "" then "Unknown" else n,
    title := if row.position == "" then "Unknown Position" else row.position,
    company := if row.company == "" then "Unknown Company" else row.company,
    industry := guessIndustry row.company row.position,
    email := if row.emailAddress == "" then none else some row.emailAddress,
    linkedIn := if row.url == "" then none else some row.url,
    lastContactDate := lastContactDate,
    degree := 1 }

/-- Embedding of the import step of `handleFileSelect`
(`LinkedInImport.tsx`): rows are converted, rows named `Unknown` are
dropped, and rows whose lowercased name matches an existing connection's
lowercased name are skipped as duplicates; the survivors are the
connections passed to `addConnections`. -/
def importConnections (existing : List Connection) (rows : List LinkedInRow)
    (now : Int) (parseDate : String → Option Int) : List Connection :=
  let newConnections :=
    rows.enum.map (fun p => linkedInRowToConnection p.2 p.1 now parseDate)
  let newConnections := newConnections.filter (fun conn => !(conn.name == "Unknown"))
  let existingNames := existing.map (fun c => jsToLower c.name)
  newConnections.filter (fun conn => !(existingNames.contains (jsToLower conn.name)))

/-- Concrete CSV row used in the import theorems. -/
def wRow : LinkedInRow :=
  { firstName := "Alice", lastName := "", company := "Acme", position := "CEO" }

/-- Concrete pre-existing connection whose name matches `wRow`. -/
def wExisting : Connection :=
  { id := "c1", name := "Alice", title := "CEO", company := "Acme",
    industry := "Other", degree := 1 }


/-- EmailStats from `EmailDashboard.tsx`. -/
structure EmailStats where
  total : Nat
  high : Nat
  medium : Nat
  low : Nat
  needsResponse : Nat
deriving DecidableEq, Repr

/-- CachedEmailData from `EmailDashboard.tsx`: the localStorage blob. -/
structure CachedEmailData where
  emails : List AnalyzedEmail
  stats : EmailStats
  timestamp : Int
  sourceAll : Bool := true
deriving DecidableEq, Repr

/-- CACHE_TTL from `EmailDashboard.tsx`: 24 hours in milliseconds. -/
def CACHE_TTL : Int := 24 * 60 * 60 * 1000

/-- Embedding of `loadFromCache` (`EmailDashboard.tsx`).  The
localStorage read is the `stored` parameter (`none` models an absent
key) and `JSON.parse` plus the shape of the parsed value is the `parse`
parameter (`none` models a parse exception, which the catch turns into
`null`).  The data is returned exactly when `now - timestamp` is
strictly below the TTL; otherwise `null`. -/
def loadFromCache (stored : Option String)
    (parse : String → Option CachedEmailData) (now : Int) : Option CachedEmailData :=
  match stored with
  | none => none
  | some cached =>
    match parse cached with
    | none => none
    | some data =>
      if now - data.timestamp < CACHE_TTL then some data else none

/-- Concrete cache blob content used in the cache-expiry theorems. -/
def wCache : CachedEmailData :=
  { emails := [], stats := ⟨0, 0, 0, 0, 0⟩, timestamp := 0 }

/-- Replace only the heat status of a connection node, leaving every
other field unchanged (used to state that the heat filter cannot affect
non-1st-degree membership). -/
def setHeat (c : ConnectionNode) (h : HeatStatus) : ConnectionNode :=
  { c with heatStatus := h }

/-- Concrete 1st-degree node used to witness the filter theorems. -/
def wNode1 : ConnectionNode :=
  { id := "a", name := "Alice", title := "CEO", company := "Acme",
    industry := "Technology", lastContactDate := 0, degree := 1,
    heatStatus := .hot }

/-- Concrete 2nd-degree node (child of `wNode1`) used to witness the
filter theorems. -/
def wNode2 : ConnectionNode :=
  { id := "b", name := "Bob", title := "CTO", company := "Beta",
    industry := "Finance", lastContactDate := 0, degree := 2,
    connectedThrough := some "a", heatStatus := .cold }

/-- Empty filter state (no industry, heat, search or degree filter). -/
def wFilters : FilterState :=
  { industries := [], heatStatuses := [], searchQuery := "", maxDegree := none }

/-- Concrete parsed email used to witness the analysis theorems. -/
def wEmail : ParsedEmail :=
  { id := "m1", subject := "Quarterly newsletter", sender := "News Desk",
    date := 0, snippet := "highlights of the quarter", isStarred := false }

/-- Concrete parsed email whose subject holds both a calendar keyword
and a newsletter keyword, exercising the branch order of the mock
analysis. -/
def cEmail : ParsedEmail :=
  { id := "m2", subject := "meeting update", sender := "Carol",
    date := 0, snippet := "", isStarred := false }

/-- Membership in a pass of the cascading filter, unfolded to the pass
predicate (first pass). -/
theorem mem_firstDegreeFiltered {connections : List ConnectionNode} {filters : FilterState} {c : ConnectionNode} :
    c ∈ firstDegreeFiltered connections filters ↔
      c ∈ connections ∧ (c.degree = 1 ∧ matchesBasicFilters filters c = true ∧
        (filters.heatStatuses.isEmpty || filters.heatStatuses.contains c.heatStatus) = true) := by
  simp [firstDegreeFiltered, firstPassPred, List.mem_filter, and_assoc]

/-- Membership in a pass of the cascading filter, unfolded to the pass
predicate (second pass). -/
theorem mem_secondDegreeFiltered {connections : List ConnectionNode} {filters : FilterState} {ids : List String} {c : ConnectionNode} :
    c ∈ secondDegreeFiltered connections filters ids ↔
      c ∈ connections ∧ (c.degree = 2 ∧ survivesParent ids c.connectedThrough = true ∧
        matchesBasicFilters filters c = true) := by
  simp [secondDegreeFiltered, secondPassPred, List.mem_filter, and_assoc]

/-- Membership in a pass of the cascading filter, unfolded to the pass
predicate (third pass). -/
theorem mem_thirdDegreeFiltered {connections : List ConnectionNode} {filters : FilterState} {ids : List String} {c : ConnectionNode} :
    c ∈ thirdDegreeFiltered connections filters ids ↔
      c ∈ connections ∧ (c.degree = 3 ∧ survivesParent ids c.connectedThrough = true ∧
        matchesBasicFilters filters c = true) := by
  simp [thirdDegreeFiltered, thirdPassPred, List.mem_filter, and_assoc]

/-- A connection is in the filtered result exactly when it is in one of
the (at most three) passes the current `maxDegree` enables. -/
theorem mem_filteredConnections {connections : List ConnectionNode} {filters : FilterState} {c : ConnectionNode} :
    c ∈ filteredConnections connections filters ↔
      (c ∈ firstDegreeFiltered connections filters ∨
       (filters.maxDegree ≠ some 1 ∧
        c ∈ secondDegreeFiltered connections filters (visible1stIds connections filters)) ∨
       (filters.maxDegree ≠ some 1 ∧ filters.maxDegree ≠ some 2 ∧
        c ∈ thirdDegreeFiltered connections filters (visible2ndIds connections filters))) := by
  unfold filteredConnections
  by_cases h1 : filters.maxDegree = some 1
  · simp [h1]
  · by_cases h2 : filters.maxDegree = some 2
    · simp [h1, h2, List.mem_append]
    · simp [h1, h2, List.mem_append, or_assoc]

/-- A positive `survivesParent` yields the witnessing parent id. -/
theorem survivesParent_spec {ids : List String} {ct : Option String}
    (h : survivesParent ids ct = true) :
    ∃ p, ct = some p ∧ p ∈ ids := by
  cases ct with
  | none => simp [survivesParent] at h
  | some p =>
    refine ⟨p, rfl, ?_⟩
    simp [survivesParent] at h
    exact h.2

end Subly

namespace Subly

/-- C2: heat status thresholds.  For every last-contact date and current
time, `getHeatStatus` returns hot exactly when the elapsed time is at
most 14 days, warm exactly when it is more than 14 and at most 90 days,
and cold exactly when it is more than 90 days; as a Lean function of its
two integer inputs it is pure and total by construction. -/
theorem heatStatus_thresholds (lastContactDate now : Int) :
    (getHeatStatus lastContactDate now = .hot ↔
      now - lastContactDate ≤ 14 * msPerDay) ∧
    (getHeatStatus lastContactDate now = .warm ↔
      (14 * msPerDay < now - lastContactDate ∧
       now - lastContactDate ≤ 90 * msPerDay)) ∧
    (getHeatStatus lastContactDate now = .cold ↔
      90 * msPerDay < now - lastContactDate) := by
  unfold getHeatStatus msPerDay
  dsimp only
  refine ⟨?_, ?_, ?_⟩ <;> split <;> (try split) <;>
    (first | (simp_all; omega) | simp_all)

/-- C1: cascading filter correctness.  Every 2nd-degree connection in
the filtered result has a `connectedThrough` id that is the id of a
1st-degree connection itself in the result, and every 3rd-degree
connection in the result has a `connectedThrough` id that is the id of a
2nd-degree connection itself in the result; hence a child whose parent
is filtered out, or whose `connectedThrough` is absent, never appears. -/
theorem cascading_filter_parent_survives (connections : List ConnectionNode)
    (filters : FilterState) (c : ConnectionNode)
    (hc : c ∈ filteredConnections connections filters) :
    (c.degree = 2 → ∃ p, c.connectedThrough = some p ∧
      ∃ parent, parent ∈ filteredConnections connections filters ∧
        parent.degree = 1 ∧ parent.id = p) ∧
    (c.degree = 3 → ∃ p, c.connectedThrough = some p ∧
      ∃ parent, parent ∈ filteredConnections connections filters ∧
        parent.degree = 2 ∧ parent.id = p) := by
  rcases mem_filteredConnections.mp hc with h1 | ⟨hm, h2⟩ | ⟨hm1, hm2, h3⟩
  · have hd := (mem_firstDegreeFiltered.mp h1).2.1
    constructor <;> intro h <;> omega
  · obtain ⟨hmem, hdeg, hsurv, hmb⟩ := mem_secondDegreeFiltered.mp h2
    obtain ⟨p, hp, hpin⟩ := survivesParent_spec hsurv
    have hpin2 : ∃ parent, parent ∈ firstDegreeFiltered connections filters ∧
        parent.id = p := by
      simpa [visible1stIds, List.mem_map] using hpin
    obtain ⟨parent, hpar, hid⟩ := hpin2
    refine ⟨fun _ => ⟨p, hp, parent, mem_filteredConnections.mpr (Or.inl hpar),
      (mem_firstDegreeFiltered.mp hpar).2.1, hid⟩, fun h3 => by omega⟩
  · obtain ⟨hmem, hdeg, hsurv, hmb⟩ := mem_thirdDegreeFiltered.mp h3
    obtain ⟨p, hp, hpin⟩ := survivesParent_spec hsurv
    have hpin2 : ∃ parent,
        parent ∈ secondDegreeFiltered connections filters (visible1stIds connections filters) ∧
        parent.id = p := by
      simpa [visible2ndIds, List.mem_map] using hpin
    obtain ⟨parent, hpar, hid⟩ := hpin2
    refine ⟨fun h2 => by omega, fun _ => ⟨p, hp, parent,
      mem_filteredConnections.mpr (Or.inr (Or.inl ⟨hm1, hpar⟩)),
      (mem_secondDegreeFiltered.mp hpar).2.1, hid⟩⟩

/-- Witness for C1: on a concrete two-node graph under the empty filter
state, the 2nd-degree node `wNode2` is in the filtered result and its
parent id is witnessed by the surviving 1st-degree node. -/
theorem cascading_filter_parent_survives_witness :
    (wNode2.degree = 2 → ∃ p, wNode2.connectedThrough = some p ∧
      ∃ parent, parent ∈ filteredConnections [wNode1, wNode2] wFilters ∧
        parent.degree = 1 ∧ parent.id = p) ∧
    (wNode2.degree = 3 → ∃ p, wNode2.connectedThrough = some p ∧
      ∃ parent, parent ∈ filteredConnections [wNode1, wNode2] wFilters ∧
        parent.degree = 2 ∧ parent.id = p) :=
  cascading_filter_parent_survives [wNode1, wNode2] wFilters wNode2 (by decide)

/-- Non-1st-degree connections are rejected by the first pass. -/
theorem firstPassPred_eq_false {filters : FilterState} {x : ConnectionNode}
    (hx : x.degree ≠ 1) : firstPassPred filters x = false := by
  simp [firstPassPred, hx]

/-- Changing only the heat status of a node does not change the second
pass condition, which never consults the heat status. -/
theorem secondPassPred_setHeat (filters : FilterState) (ids : List String)
    (c : ConnectionNode) (h : HeatStatus) :
    secondPassPred filters ids (setHeat c h) = secondPassPred filters ids c := rfl

/-- Changing only the heat status of a node does not change the third
pass condition, which never consults the heat status. -/
theorem thirdPassPred_setHeat (filters : FilterState) (ids : List String)
    (c : ConnectionNode) (h : HeatStatus) :
    thirdPassPred filters ids (setHeat c h) = thirdPassPred filters ids c := rfl

/-- Replacing the element at index `i` of a list by an element on which
the filter predicate and the mapped projection agree leaves the
filtered-and-mapped list unchanged. -/
theorem filter_map_set_eq {α β : Type} (l : List α) (i : Nat) (a : α)
    (p : α → Bool) (f : α → β)
    (hp : ∀ hh : i < l.length, p a = p (l.get ⟨i, hh⟩))
    (hf : ∀ hh : i < l.length, f a = f (l.get ⟨i, hh⟩)) :
    ((l.set i a).filter p).map f = (l.filter p).map f := by
  induction l generalizing i with
  | nil => simp
  | cons x xs ih =>
    cases i with
    | zero =>
      have hp0 := hp (by simp)
      have hf0 := hf (by simp)
      simp only [List.get] at hp0 hf0
      simp only [List.set]
      by_cases hx : p x
      · simp [List.filter_cons, hp0, hx, hf0]
      · simp [List.filter_cons, hp0, hx]
    | succ n =>
      simp only [List.set]
      have ih2 := ih n (fun hh => hp (Nat.succ_lt_succ hh))
        (fun hh => hf (Nat.succ_lt_succ hh))
      by_cases hx : p x <;> simp [List.filter_cons, hx, ih2]

/-- C9: the heat filter applies only to 1st-degree nodes.  Changing the
heat status of a connection whose degree is not 1 (leaving every other
field and every other connection unchanged) never changes whether that
connection appears in the filtered result: heat statuses influence the
result only through the 1st-degree pass. -/
theorem heat_filter_only_first_degree (connections : List ConnectionNode)
    (filters : FilterState) (i : Nat) (hi : i < connections.length) (h : HeatStatus)
    (hdeg : (connections.get ⟨i, hi⟩).degree ≠ 1) :
    (setHeat (connections.get ⟨i, hi⟩) h ∈
        filteredConnections
          (connections.set i (setHeat (connections.get ⟨i, hi⟩) h)) filters ↔
      connections.get ⟨i, hi⟩ ∈ filteredConnections connections filters) := by
  set c := connections.get ⟨i, hi⟩ with hcdef
  set c' := setHeat c h with hc2def
  have hdeg2 : c'.degree = c.degree := rfl
  have hid2 : c'.id = c.id := rfl
  have hct2 : c'.connectedThrough = c.connectedThrough := rfl
  have hmb2 : matchesBasicFilters filters c' = matchesBasicFilters filters c := rfl
  have hf1 : firstPassPred filters c' = false :=
    firstPassPred_eq_false (by rw [hdeg2]; exact hdeg)
  have hf2 : firstPassPred filters c = false := firstPassPred_eq_false hdeg
  have hv1 : visible1stIds (connections.set i c') filters =
      visible1stIds connections filters := by
    unfold visible1stIds firstDegreeFiltered
    exact filter_map_set_eq connections i c' (firstPassPred filters) (fun x => x.id)
      (fun hh => by rw [hf1]; exact hf2.symm) (fun hh => rfl)
  have hv2 : visible2ndIds (connections.set i c') filters =
      visible2ndIds connections filters := by
    unfold visible2ndIds secondDegreeFiltered
    rw [hv1]
    exact filter_map_set_eq connections i c'
      (secondPassPred filters (visible1stIds connections filters)) (fun x => x.id)
      (fun hh => secondPassPred_setHeat filters _ c h) (fun hh => rfl)
  have hmemset : c' ∈ connections.set i c' := List.mem_set connections i hi c'
  have hmemget : c ∈ connections := List.get_mem connections i hi
  rw [mem_filteredConnections, mem_filteredConnections, hv1, hv2]
  rw [mem_firstDegreeFiltered, mem_firstDegreeFiltered,
    mem_secondDegreeFiltered, mem_secondDegreeFiltered,
    mem_thirdDegreeFiltered, mem_thirdDegreeFiltered]
  rw [hdeg2, hct2, hmb2]
  simp only [hmemset, hmemget, true_and]
  simp [hdeg]

/-- Witness for C9: in a concrete two-node graph, recolouring the
2nd-degree node from cold to hot does not change its membership in the
filtered result. -/
theorem heat_filter_only_first_degree_witness :
    (setHeat ([wNode1, wNode2].get ⟨1, by decide⟩) .hot ∈
        filteredConnections
          ([wNode1, wNode2].set 1 (setHeat ([wNode1, wNode2].get ⟨1, by decide⟩) .hot))
          wFilters ↔
      [wNode1, wNode2].get ⟨1, by decide⟩ ∈
        filteredConnections [wNode1, wNode2] wFilters) :=
  heat_filter_only_first_degree [wNode1, wNode2] wFilters 1 (by decide) .hot (by decide)

/-- C3: the analysis fallback never throws.  Whenever the generative API
call errors (including rate limiting) or its response contains no
extractable JSON payload, `analyzeEmail` returns the keyword-based mock
analysis; and in every case the returned analysis carries the input
email's id. -/
theorem analyzeEmail_fallback_and_id (email : ParsedEmail) (now : Int)
    (apiResult : ApiOutcome) :
    ((apiResult = .error () ∨ apiResult = .ok none) →
      analyzeEmail email now apiResult = generateSmartMockAnalysis email now) ∧
    (analyzeEmail email now apiResult).id = email.id := by
  constructor
  · rintro (h | h) <;> rw [h] <;> rfl
  · cases apiResult with
    | error e => rfl
    | ok o =>
      cases o with
      | none => rfl
      | some a => rfl

/-- Witness for C3 at a concrete email and an erroring API call. -/
theorem analyzeEmail_fallback_and_id_witness :
    analyzeEmail wEmail 0 (Except.error ()) = generateSmartMockAnalysis wEmail 0 ∧
    (analyzeEmail wEmail 0 (Except.error ())).id = wEmail.id :=
  ⟨(analyzeEmail_fallback_and_id wEmail 0 (Except.error ())).1 (Or.inl rfl),
   (analyzeEmail_fallback_and_id wEmail 0 (Except.error ())).2⟩

/-- C4 counterexample: the claim as stated fails on the concrete email
`cEmail` with subject `meeting update`.  The subject contains none of
the high-priority keywords, the email is not starred and not old, and
the subject contains `update`, so the claim predicts priority LOW with
action FYI; the code, whose meeting/calendar branch precedes the
newsletter branch, returns priority MEDIUM with action DEADLINE. -/
theorem mock_newsletter_rule_counterexample :
    (jsIncludes (jsToLower cEmail.subject) "update" = true ∧
     jsIncludes (jsToLower cEmail.subject) "urgent" = false ∧
     jsIncludes (jsToLower cEmail.subject) "asap" = false ∧
     jsIncludes (jsToLower cEmail.subject) "important" = false ∧
     jsIncludes (jsToLower cEmail.subject) "deadline" = false ∧
     jsIncludes (jsToLower cEmail.subject) "action required" = false ∧
     cEmail.isStarred = false ∧
     daysOld cEmail.date 0 = 0) ∧
    ¬((generateSmartMockAnalysis cEmail 0).priority = Priority.LOW ∧
      (generateSmartMockAnalysis cEmail 0).action = ActionType.FYI) := by
  decide

/-- C4 (amended): fallback keyword rules.  The mock analysis assigns
priority HIGH, action RESPONSE_NEEDED and response time ASAP when the
lowercased subject contains urgent/asap/important/deadline/action
required or the email is starred; when additionally no meeting, invite
or calendar keyword occurs in the subject and no question or help
keyword occurs in the subject nor a question mark in the snippet, a
subject containing newsletter, update or digest yields priority LOW
with action FYI; and any email whose floored age exceeds 7 days ends
with priority HIGH or LOW (every non-HIGH priority is demoted to
LOW). -/
theorem mock_analysis_keyword_rules (email : ParsedEmail) (now : Int) :
    ((jsIncludes (jsToLower email.subject) "urgent" || jsIncludes (jsToLower email.subject) "asap" ||
      jsIncludes (jsToLower email.subject) "important" || jsIncludes (jsToLower email.subject) "deadline" ||
      jsIncludes (jsToLower email.subject) "action required" || email.isStarred) = true →
      (generateSmartMockAnalysis email now).priority = Priority.HIGH ∧
      (generateSmartMockAnalysis email now).action = ActionType.RESPONSE_NEEDED ∧
      (generateSmartMockAnalysis email now).suggestedResponseTime = ResponseTime.ASAP) ∧
    ((jsIncludes (jsToLower email.subject) "urgent" || jsIncludes (jsToLower email.subject) "asap" ||
      jsIncludes (jsToLower email.subject) "important" || jsIncludes (jsToLower email.subject) "deadline" ||
      jsIncludes (jsToLower email.subject) "action required" || email.isStarred) = false →
     (jsIncludes (jsToLower email.subject) "meeting" || jsIncludes (jsToLower email.subject) "invite" ||
      jsIncludes (jsToLower email.subject) "calendar") = false →
     (jsIncludes (jsToLower email.subject) "question" || jsIncludes (jsToLower email.subject) "help" ||
      jsIncludes (jsToLower email.snippet) "?") = false →
     (jsIncludes (jsToLower email.subject) "newsletter" || jsIncludes (jsToLower email.subject) "update" ||
      jsIncludes (jsToLower email.subject) "digest") = true →
      (generateSmartMockAnalysis email now).priority = Priority.LOW ∧
      (generateSmartMockAnalysis email now).action = ActionType.FYI) ∧
    (daysOld email.date now > 7 →
      (generateSmartMockAnalysis email now).priority = Priority.HIGH ∨
      (generateSmartMockAnalysis email now).priority = Priority.LOW) := by
  refine ⟨fun h1 => ?_, fun h1 h2 h3 h4 => ?_, fun hd => ?_⟩
  · simp [generateSmartMockAnalysis, h1]
  · simp [generateSmartMockAnalysis, h1, h2, h3, h4]
  · have hd2 : decide (daysOld email.date now > 7) = true := decide_eq_true hd
    by_cases h1 : (jsIncludes (jsToLower email.subject) "urgent" ||
        jsIncludes (jsToLower email.subject) "asap" ||
        jsIncludes (jsToLower email.subject) "important" ||
        jsIncludes (jsToLower email.subject) "deadline" ||
        jsIncludes (jsToLower email.subject) "action required" || email.isStarred) = true
    · left; simp [generateSmartMockAnalysis, h1]
    · simp only [Bool.not_eq_true] at h1
      right
      by_cases h2 : (jsIncludes (jsToLower email.subject) "meeting" ||
          jsIncludes (jsToLower email.subject) "invite" ||
          jsIncludes (jsToLower email.subject) "calendar") = true
      · simp [generateSmartMockAnalysis, h1, h2, hd2]
      · simp only [Bool.not_eq_true] at h2
        by_cases h3 : (jsIncludes (jsToLower email.subject) "question" ||
            jsIncludes (jsToLower email.subject) "help" ||
            jsIncludes (jsToLower email.snippet) "?") = true
        · simp [generateSmartMockAnalysis, h1, h2, h3, hd2]
        · simp only [Bool.not_eq_true] at h3
          by_cases h4 : (jsIncludes (jsToLower email.subject) "newsletter" ||
              jsIncludes (jsToLower email.subject) "update" ||
              jsIncludes (jsToLower email.subject) "digest") = true
          · simp [generateSmartMockAnalysis, h1, h2, h3, h4, hd2]
          · simp only [Bool.not_eq_true] at h4
            simp [generateSmartMockAnalysis, h1, h2, h3, h4, hd2]

/-- Witness for C4 (amended) at the concrete newsletter email. -/
theorem mock_analysis_keyword_rules_witness :
    (generateSmartMockAnalysis wEmail 0).priority = Priority.LOW ∧
    (generateSmartMockAnalysis wEmail 0).action = ActionType.FYI :=
  (mock_analysis_keyword_rules wEmail 0).2.1 (by decide) (by decide) (by decide) (by decide)

/-- C5: enrichment preserves the raw email.  `analyzeAndEnrich` (whose
enrichment step is `enrichWith`) returns one AnalyzedEmail per input
email in the same order with every raw parsed field unchanged (the
mapped projection back to ParsedEmail is the input list); when no
produced analysis has a matching id, the attached analysis is the
default, whose priority is MEDIUM, action FYI and response time
`When convenient`; and `batchAnalyze` of the empty list is the empty
list. -/
theorem analyzeAndEnrich_preserves_raw (emails : List ParsedEmail)
    (analyses : List EmailAnalysis) :
    ((enrichWith emails analyses).map (fun e => e.toParsedEmail) = emails) ∧
    (∀ i, ∀ hi : i < emails.length, ∀ hi2 : i < (enrichWith emails analyses).length,
      (∀ a, a ∈ analyses → a.id ≠ (emails.get ⟨i, hi⟩).id) →
        ((enrichWith emails analyses).get ⟨i, hi2⟩).analysis =
          defaultAnalysis (emails.get ⟨i, hi⟩)) ∧
    (∀ e : ParsedEmail, (defaultAnalysis e).priority = Priority.MEDIUM ∧
      (defaultAnalysis e).action = ActionType.FYI ∧
      (defaultAnalysis e).suggestedResponseTime = ResponseTime.WhenConvenient) ∧
    (∀ (now : Int) (oracle : ParsedEmail → Except Unit ApiOutcome),
      batchAnalyze [] now oracle = []) := by
  refine ⟨?_, ?_, fun e => ⟨rfl, rfl, rfl⟩, fun now oracle => rfl⟩
  · have hcomp : ((fun e : AnalyzedEmail => e.toParsedEmail) ∘ fun email : ParsedEmail =>
        ({ toParsedEmail := email,
           analysis := (analysisMapGet analyses email.id).getD (defaultAnalysis email) } :
          AnalyzedEmail)) = fun email => email := rfl
    rw [enrichWith, List.map_map, hcomp]
    exact List.map_id' emails
  · intro i hi hi2 hno
    have hnone : analysisMapGet analyses (emails.get ⟨i, hi⟩).id = none := by
      unfold analysisMapGet
      rw [List.find?_eq_none]
      intro a ha
      simp only [List.mem_reverse] at ha
      simpa using hno a ha
    simp only [List.get_eq_getElem] at hnone
    simp [enrichWith, hnone]

/-- Witness for C5: enriching one concrete email against an empty
analysis list attaches the default analysis and returns the email
unchanged. -/
theorem analyzeAndEnrich_preserves_raw_witness :
    ((enrichWith [wEmail] []).map (fun e => e.toParsedEmail) = [wEmail]) ∧
    ((enrichWith [wEmail] []).get ⟨0, by decide⟩).analysis = defaultAnalysis wEmail :=
  ⟨(analyzeAndEnrich_preserves_raw [wEmail] []).1,
   (analyzeAndEnrich_preserves_raw [wEmail] []).2.1 0 (by decide) (by decide)
     (fun a ha => absurd ha (List.not_mem_nil a))⟩

/-- The comparator of `sortByPriority` is transitive. -/
theorem sortLE_trans (a b c : AnalyzedEmail) (hab : sortLE a b) (hbc : sortLE b c) :
    sortLE a c := by
  simp only [sortLE, Bool.or_eq_true, Bool.and_eq_true, beq_iff_eq,
    decide_eq_true_eq] at *
  omega

/-- The comparator of `sortByPriority` is total. -/
theorem sortLE_total (a b : AnalyzedEmail) : sortLE a b || sortLE b a := by
  simp only [sortLE, Bool.or_eq_true, Bool.and_eq_true, beq_iff_eq,
    decide_eq_true_eq]
  omega

/-- C10: `sortByPriority` is a non-mutating, order-respecting sort.  Its
result is a permutation of the input in which earlier elements never
have a larger priority rank (so every HIGH precedes every MEDIUM and
every MEDIUM precedes every LOW) and elements of equal priority are in
ascending date order (older first).  As a pure Lean function it returns
a new list and cannot mutate its input, matching the source's
`[...emails].sort(...)` on a copy. -/
theorem sortByPriority_sorted_perm (emails : List AnalyzedEmail) :
    (sortByPriority emails).Perm emails ∧
    (sortByPriority emails).Pairwise (fun a b =>
      priorityOrder a.analysis.priority ≤ priorityOrder b.analysis.priority ∧
      (priorityOrder a.analysis.priority = priorityOrder b.analysis.priority →
        a.date ≤ b.date)) := by
  constructor
  · exact List.mergeSort_perm emails sortLE
  · have h := @List.sorted_mergeSort AnalyzedEmail sortLE sortLE_trans sortLE_total emails
    refine h.imp ?_
    intro a b hab
    simp only [sortLE, Bool.or_eq_true, Bool.and_eq_true, beq_iff_eq,
      decide_eq_true_eq] at hab
    rcases hab with h1 | ⟨h2, h3⟩
    · exact ⟨Nat.le_of_lt h1, fun he => absurd he (by omega)⟩
    · exact ⟨Nat.le_of_eq h2, fun hd => h3⟩

/-- C6 counterexample: a parsed row mapping to the named connection
`Alice` (not `Unknown`) is not added when a connection named `Alice`
already exists: the import filters duplicates by lowercased name, so
the result of importing that row is empty. -/
theorem import_skips_duplicate_names :
    ((linkedInRowToConnection wRow 0 0 (fun _ => none)).name = "Alice" ∧
     (linkedInRowToConnection wRow 0 0 (fun _ => none)).name ≠ "Unknown") ∧
    importConnections [wExisting] [wRow] 0 (fun _ => none) = [] := by
  decide

/-- C6 (amended): the import adds exactly the parsed rows that map to a
connection whose name is not `Unknown` and whose lowercased name does
not match the lowercased name of any pre-existing connection; rows
matching an existing name are skipped as duplicates (duplicates within
the same import batch are not checked against each other). -/
theorem importConnections_mem (existing : List Connection) (rows : List LinkedInRow)
    (now : Int) (parseDate : String → Option Int) (c : Connection) :
    c ∈ importConnections existing rows now parseDate ↔
      ((∃ i, ∃ hi : i < rows.length,
          c = linkedInRowToConnection (rows.get ⟨i, hi⟩) i now parseDate) ∧
       c.name ≠ "Unknown" ∧
       ∀ e ∈ existing, jsToLower e.name ≠ jsToLower c.name) := by
  unfold importConnections
  dsimp only
  constructor
  · intro hmem
    rw [List.mem_filter] at hmem
    obtain ⟨hmem1, hp2⟩ := hmem
    rw [List.mem_filter] at hmem1
    obtain ⟨hmem0, hp1⟩ := hmem1
    rw [List.mem_map] at hmem0
    obtain ⟨p, hpmem, hfc⟩ := hmem0
    rw [List.mem_enum_iff_getElem?, List.getElem?_eq_some_iff] at hpmem
    obtain ⟨hi, hrow⟩ := hpmem
    refine ⟨⟨p.1, hi, ?_⟩, ?_, ?_⟩
    · rw [← hfc]
      have hg : rows.get ⟨p.1, hi⟩ = p.2 := by
        simpa [List.get_eq_getElem] using hrow
      rw [hg]
    · intro h
      rw [Bool.not_eq_true', beq_eq_false_iff_ne] at hp1
      exact hp1 h
    · intro e he heq
      rw [Bool.not_eq_true', List.contains_eq_any_beq, List.any_eq_false] at hp2
      exact hp2 (jsToLower e.name) (List.mem_map_of_mem _ he)
        (by rw [heq]; exact beq_self_eq_true _)
  · rintro ⟨⟨i, hi, hc⟩, hname, hdup⟩
    rw [List.mem_filter]
    refine ⟨?_, ?_⟩
    · rw [List.mem_filter]
      refine ⟨?_, ?_⟩
      · rw [List.mem_map]
        refine ⟨(i, rows.get ⟨i, hi⟩), ?_, hc.symm⟩
        rw [List.mem_enum_iff_getElem?]
        simp only [List.getElem?_eq_some_iff, List.get_eq_getElem]
        exact ⟨hi, trivial⟩
      · rw [Bool.not_eq_true', beq_eq_false_iff_ne]
        exact hname
    · rw [Bool.not_eq_true', List.contains_eq_any_beq, List.any_eq_false]
      intro x hx hbeq
      rw [List.mem_map] at hx
      obtain ⟨e, he, hex⟩ := hx
      rw [beq_iff_eq] at hbeq
      exact hdup e he (hex.trans hbeq.symm)

/-- Witness for C6 (amended): with no pre-existing connections, the
converted row is imported. -/
theorem importConnections_mem_witness :
    linkedInRowToConnection wRow 0 7 (fun _ => none) ∈
      importConnections [] [wRow] 7 (fun _ => none) :=
  (importConnections_mem [] [wRow] 7 (fun _ => none) _).mpr
    ⟨⟨0, by decide, rfl⟩, by decide, fun e he => absurd he (List.not_mem_nil e)⟩

/-- C7: cache expiry.  `loadFromCache` returns the stored data exactly
when the blob is present, parses, and `now - timestamp` is strictly
less than 24 hours; an absent, unparseable or expired blob yields
`none` (the cache is treated as empty rather than failing). -/
theorem loadFromCache_expiry (stored : Option String)
    (parse : String → Option CachedEmailData) (now : Int) :
    (∀ d, loadFromCache stored parse now = some d ↔
      ∃ s, stored = some s ∧ parse s = some d ∧ now - d.timestamp < CACHE_TTL) ∧
    (stored = none → loadFromCache stored parse now = none) ∧
    (∀ s, stored = some s → parse s = none → loadFromCache stored parse now = none) ∧
    (∀ s d, stored = some s → parse s = some d →
      ¬(now - d.timestamp < CACHE_TTL) → loadFromCache stored parse now = none) := by
  refine ⟨?_, ?_, ?_, ?_⟩
  · intro d
    constructor
    · intro h
      cases stored with
      | none => simp [loadFromCache] at h
      | some s =>
        cases hp : parse s with
        | none => simp [loadFromCache, hp] at h
        | some d2 =>
          simp only [loadFromCache, hp] at h
          split at h
          · rename_i ht
            have hd : d2 = d := by injection h
            subst hd
            exact ⟨s, rfl, hp, ht⟩
          · cases h
    · rintro ⟨s, rfl, hpd, ht⟩
      simp [loadFromCache, hpd, ht]
  · intro h
    subst h
    rfl
  · intro s h hp
    subst h
    simp [loadFromCache, hp]
  · intro s d h hp ht
    subst h
    simp [loadFromCache, hp, ht]

/-- Witness for C7: a fresh blob is returned, an absent blob yields
`none`. -/
theorem loadFromCache_expiry_witness :
    loadFromCache (some "blob") (fun _ => some wCache) 1 = some wCache ∧
    loadFromCache none (fun _ => some wCache) 1 = none :=
  ⟨((loadFromCache_expiry (some "blob") (fun _ => some wCache) 1).1 wCache).mpr
      ⟨"blob", rfl, rfl, by decide⟩,
   (loadFromCache_expiry none (fun _ => some wCache) 1).2.1 rfl⟩

/-- If no industry keyword occurs in the lowercased concatenation of
company and position, the industry heuristic falls back to `Other`. -/
theorem guessIndustry_other (company position : String)
    (hk : ∀ k ∈ industryKeywords,
      jsIncludes (jsToLower (company ++ " " ++ position)) k = false) :
    guessIndustry company position = "Other" := by
  simp only [industryKeywords, List.mem_cons, List.not_mem_nil, or_false,
    forall_eq_or_imp, forall_eq] at hk
  simp [guessIndustry, hk]

/-- C8: CSV field mapping defaults.  Every converted row has degree 1;
the name is the trimmed concatenation of first and last name, or
`Unknown` when both are empty (equivalently, when the trimmed
concatenation is empty); missing position and company fall back to
`Unknown Position` and `Unknown Company`; the industry is the keyword
heuristic, `Other` when no keyword matches; and the last-contact date
is the parsed `Connected On` date, or the current date when the field
is missing or unparseable. -/
theorem linkedInRowToConnection_defaults (row : LinkedInRow) (index : Nat)
    (now : Int) (parseDate : String → Option Int) :
    (linkedInRowToConnection row index now parseDate).degree = 1 ∧
    (row.firstName = "" ∧ row.lastName = "" →
      (linkedInRowToConnection row index now parseDate).name = "Unknown") ∧
    (jsTrim (row.firstName ++ " " ++ row.lastName) ≠ "" →
      (linkedInRowToConnection row index now parseDate).name =
        jsTrim (row.firstName ++ " " ++ row.lastName)) ∧
    (row.position = "" →
      (linkedInRowToConnection row index now parseDate).title = "Unknown Position") ∧
    (row.position ≠ "" →
      (linkedInRowToConnection row index now parseDate).title = row.position) ∧
    (row.company = "" →
      (linkedInRowToConnection row index now parseDate).company = "Unknown Company") ∧
    (row.company ≠ "" →
      (linkedInRowToConnection row index now parseDate).company = row.company) ∧
    (linkedInRowToConnection row index now parseDate).industry =
      guessIndustry row.company row.position ∧
    ((∀ k ∈ industryKeywords,
        jsIncludes (jsToLower (row.company ++ " " ++ row.position)) k = false) →
      (linkedInRowToConnection row index now parseDate).industry = "Other") ∧
    (row.connectedOn = "" →
      (linkedInRowToConnection row index now parseDate).lastContactDate = now) ∧
    (∀ d, row.connectedOn ≠ "" → parseDate row.connectedOn = some d →
      (linkedInRowToConnection row index now parseDate).lastContactDate = d) ∧
    (row.connectedOn ≠ "" → parseDate row.connectedOn = none →
      (linkedInRowToConnection row index now parseDate).lastContactDate = now) := by
  obtain ⟨f, l, u, em, co, po, cOn⟩ := row
  refine ⟨rfl, ?_, ?_, ?_, ?_, ?_, ?_, rfl, ?_, ?_, ?_, ?_⟩
  · rintro ⟨h1, h2⟩
    subst h1
    subst h2
    rfl
  · intro hn
    simp [linkedInRowToConnection, hn]
  · intro h
    subst h
    rfl
  · intro h
    simp [linkedInRowToConnection, h]
  · intro h
    subst h
    rfl
  · intro h
    simp [linkedInRowToConnection, h]
  · intro hk
    exact guessIndustry_other co po hk
  · intro h
    subst h
    rfl
  · intro d h hp
    simp [linkedInRowToConnection, h, hp]
  · intro h hp
    simp [linkedInRowToConnection, h, hp]

/-- Witness for C8 at a concrete row with no `Connected On` field: the
converted connection has degree 1 and last-contact date `now`. -/
theorem linkedInRowToConnection_defaults_witness :
    (linkedInRowToConnection wRow 0 5 (fun _ => none)).degree = 1 ∧
    (linkedInRowToConnection wRow 0 5 (fun _ => none)).lastContactDate = 5 :=
  ⟨(linkedInRowToConnection_defaults wRow 0 5 (fun _ => none)).1,
   (linkedInRowToConnection_defaults wRow 0 5 (fun _ => none)).2.2.2.2.2.2.2.2.2.1 rfl⟩

end Subly
